import Mathlib

/-!
Verification of the external free-camera tool (Rust sources under src/).

Shallow embedding conventions:
* `usize` / `u32` values are modelled as `Nat`; the resolver's range checks make
  the 32-bit width explicit where it matters.
* `f32` values are modelled as real numbers; the claims under study concern the
  algebraic structure of the camera code, not rounding.
* The foreign process is modelled explicitly: reads are an oracle function
  `Nat → Option Nat` (`none` = failed `ReadProcessMemory`), and the patch
  manager threads a `ProcState` (byte memory plus per-address protection).
* Fallible operations return `Except` with inductive error kinds standing for
  the distinct error strings of the source.
-/

namespace ThpsFreeCam

open Real

/-! ### Pointer-chain resolver — src/process.rs, `ProcessHandle::resolve_pointer_chain` -/

/-- Error outcomes of `resolve_pointer_chain` (the three distinct error strings
of the source: null pointer, out-of-range pointer, failed read). -/
inductive ChainError
  | nullPointer (step : Nat)
  | invalidPointer (value : Nat) (step : Nat)
  | readFailed (step : Nat)
  deriving DecidableEq

/-- The loop of `resolve_pointer_chain`, with the running step index `i`.
Besides the result it returns the list of addresses at which a 4-byte read was
performed (in order), so that "no further reads occur" is expressible.
Mirrors the source: for the last offset just add; otherwise read a `u32` at
`current`, error on 0, error on a value outside `[0x10000, 0x7FFFFFFF]`,
else continue from value + offset. -/
def resolveChainGo (mem : Nat → Option Nat) :
    Nat → Nat → List Nat → Except ChainError Nat × List Nat
  | current, _, [] => (.ok current, [])
  | current, _, [offset] => (.ok (current + offset), [])
  | current, i, offset :: next :: rest =>
    match mem current with
    | none => (.error (.readFailed i), [current])
    | some v =>
      if v = 0 then (.error (.nullPointer i), [current])
      else if v < 0x10000 ∨ 0x7FFFFFFF < v then (.error (.invalidPointer v i), [current])
      else
        let r := resolveChainGo mem (v + offset) (i + 1) (next :: rest)
        (r.1, current :: r.2)

/-- `ProcessHandle::resolve_pointer_chain`: walk the chain from `base_address`. -/
def resolve_pointer_chain (mem : Nat → Option Nat) (base_address : Nat)
    (offsets : List Nat) : Except ChainError Nat :=
  (resolveChainGo mem base_address 0 offsets).1

/-- Addresses read while resolving a chain. -/
def chainReads (mem : Nat → Option Nat) (base_address : Nat) (offsets : List Nat) : List Nat :=
  (resolveChainGo mem base_address 0 offsets).2

/-- Test memory: every 4-byte read yields 0. -/
def memNull : Nat → Option Nat := fun _ => some 0

/-- Test memory: every 4-byte read yields 5 (below 0x10000, nonzero). -/
def memLow : Nat → Option Nat := fun _ => some 5

/-- Test memory: every 4-byte read yields 0x20000 (a valid pointer value). -/
def memValid : Nat → Option Nat := fun _ => some 0x20000

/-- Claim C2: at any non-final step `i` (there is at least one further offset),
a 4-byte read yielding exactly 0 makes the resolver return the null-pointer
error for step `i`, and a nonzero value below 0x10000 or above 0x7FFFFFFF makes
it return the invalid-pointer error carrying the value and step `i`; in both
cases the failing read is the last read performed (trace is exactly `[current]`)
and no offset is added (the run ends in the error). The statement is over the
general loop state `(current, i)`, hence covers every base address and
non-empty offset list via `resolve_pointer_chain = resolveChainGo · · 0 ·`. -/
theorem resolve_chain_error_cases (mem : Nat → Option Nat)
    (current i offset next : Nat) (rest : List Nat) (v : Nat)
    (hv : mem current = some v) :
    (v = 0 →
      resolveChainGo mem current i (offset :: next :: rest) =
        (.error (.nullPointer i), [current])) ∧
    (v ≠ 0 → (v < 0x10000 ∨ 0x7FFFFFFF < v) →
      resolveChainGo mem current i (offset :: next :: rest) =
        (.error (.invalidPointer v i), [current])) := by
  constructor
  · intro h0
    subst h0
    simp [resolveChainGo, hv]
  · intro h0 hrange
    simp [resolveChainGo, hv, h0, hrange]

/-- Witness for C2: concrete runs hitting the null and the invalid branch. -/
theorem resolve_chain_error_cases_witness :
    resolveChainGo memNull 10 0 [4, 8] = (.error (.nullPointer 0), [10]) ∧
    resolveChainGo memLow 10 0 [4, 8] = (.error (.invalidPointer 5 0), [10]) :=
  ⟨(resolve_chain_error_cases memNull 10 0 4 8 [] 0 rfl).1 rfl,
   (resolve_chain_error_cases memLow 10 0 4 8 [] 5 rfl).2 (by decide) (by decide)⟩

/-- Claim C5: a singleton offset list resolves to `base + offset` with no read
performed; and at a non-final step whose read yields a valid pointer value `v`,
the resolver continues from `v + offset` with the step index advanced, the read
address being recorded — i.e. the result is obtained by repeatedly setting
`current` to the read value plus that step's offset and finally adding the last
offset. (The embedding is read-only: no write operation exists in the model,
matching the source, which never writes during resolution.) -/
theorem resolve_chain_computation :
    (∀ (mem : Nat → Option Nat) (base offset : Nat),
      resolve_pointer_chain mem base [offset] = .ok (base + offset) ∧
      chainReads mem base [offset] = []) ∧
    (∀ (mem : Nat → Option Nat) (current i offset next : Nat) (rest : List Nat) (v : Nat),
      mem current = some v → v ≠ 0 → ¬(v < 0x10000 ∨ 0x7FFFFFFF < v) →
      resolveChainGo mem current i (offset :: next :: rest) =
        ((resolveChainGo mem (v + offset) (i + 1) (next :: rest)).1,
          current :: (resolveChainGo mem (v + offset) (i + 1) (next :: rest)).2)) := by
  constructor
  · intro mem base offset
    exact ⟨rfl, rfl⟩
  · intro mem current i offset next rest v hv h0 hrange
    simp [resolveChainGo, hv, h0, hrange]

/-- Witness for C5: a singleton chain, and one valid dereference step. -/
theorem resolve_chain_computation_witness :
    (resolve_pointer_chain memValid 100 [7] = .ok 107 ∧
      chainReads memValid 100 [7] = []) ∧
    resolveChainGo memValid 10 0 [4, 8] =
      ((resolveChainGo memValid (0x20000 + 4) 1 [8]).1,
        10 :: (resolveChainGo memValid (0x20000 + 4) 1 [8]).2) :=
  ⟨resolve_chain_computation.1 memValid 100 7,
   resolve_chain_computation.2 memValid 10 0 4 8 [] 0x20000 rfl (by decide) (by decide)⟩

/-- Claim C10: an empty offset list is accepted: the loop body never runs, the
base address is returned unchanged and no read is performed. -/
theorem resolve_empty_offsets (mem : Nat → Option Nat) (base_address : Nat) :
    resolve_pointer_chain mem base_address [] = .ok base_address ∧
    chainReads mem base_address [] = [] :=
  ⟨rfl, rfl⟩

/-! ### Code patch manager — src/process.rs, `patch_with_nops` / `restore_patch` -/

/-- Target-process state: byte memory and per-address page protection. -/
@[ext]
structure ProcState where
  mem : Nat → Nat
  prot : Nat → Nat

/-- Success/failure oracle for the OS calls a patch operation makes.  The
results of the protection-restoring `VirtualProtectEx` calls are discarded by
the source, so only the read, the first protect, and the write need a flag. -/
structure MemOps where
  readOk : Bool
  protOk : Bool
  writeOk : Bool

/-- All OS calls succeed. -/
def allOk : MemOps := ⟨true, true, true⟩

/-- Error outcomes of the patch manager (the distinct error strings of the
source; `notApplied` is the "Patch is not currently applied" guard). -/
inductive PatchError
  | readFailed
  | protectFailed
  | writeFailed
  | notApplied
  deriving DecidableEq

/-- `CodePatch` from src/process.rs. -/
structure CodePatch where
  address : Nat
  original_bytes : List Nat
  is_applied : Bool

/-- `ReadProcessMemory` of `length` bytes at `address` (the data it moves). -/
def readBytes (s : ProcState) (address length : Nat) : List Nat :=
  (List.range length).map fun i => s.mem (address + i)

/-- `WriteProcessMemory` of a byte list at `address`. -/
def writeBytes (s : ProcState) (address : Nat) (bytes : List Nat) : ProcState :=
  { s with
    mem := fun x =>
      if address ≤ x ∧ x < address + bytes.length then bytes.getD (x - address) (s.mem x)
      else s.mem x }

/-- `VirtualProtectEx`: set the protection of `[address, address+length)`. -/
def setProt (s : ProcState) (address length p : Nat) : ProcState :=
  { s with
    prot := fun x => if address ≤ x ∧ x < address + length then p else s.prot x }

/-- Protection constant passed to `VirtualProtectEx` by the source. -/
def PAGE_EXECUTE_READWRITE : Nat := 0x40

/-- `ProcessHandle::patch_with_nops`: read the original bytes (abort on
failure), relax protection (abort on failure), write 0x90 bytes (on failure put
the protection back, then abort), restore protection, and return an applied
`CodePatch`.  `old_protect` is the pre-call protection reported by
`VirtualProtectEx`, modelled as the protection at the first address. -/
def patch_with_nops (ops : MemOps) (s : ProcState) (address length : Nat) :
    Except PatchError CodePatch × ProcState :=
  if ops.readOk = false then (.error .readFailed, s)
  else
    let original_bytes := readBytes s address length
    let old_protect := s.prot address
    if ops.protOk = false then (.error .protectFailed, s)
    else
      let s1 := setProt s address length PAGE_EXECUTE_READWRITE
      let nop_bytes := List.replicate length 0x90
      if ops.writeOk = false then
        (.error .writeFailed, setProt s1 address length old_protect)
      else
        let s2 := writeBytes s1 address nop_bytes
        (.ok ⟨address, original_bytes, true⟩, setProt s2 address length old_protect)

/-- `ProcessHandle::restore_patch`: reject an unapplied patch, else relax
protection, write the captured original bytes back (on failure put the
protection back, then abort), restore protection, and clear `is_applied`.
Returns the result, the (possibly updated) patch, and the process state. -/
def restore_patch (ops : MemOps) (s : ProcState) (patch : CodePatch) :
    Except PatchError Unit × CodePatch × ProcState :=
  if patch.is_applied = false then (.error .notApplied, patch, s)
  else
    let length := patch.original_bytes.length
    let old_protect := s.prot patch.address
    if ops.protOk = false then (.error .protectFailed, patch, s)
    else
      let s1 := setProt s patch.address length PAGE_EXECUTE_READWRITE
      if ops.writeOk = false then
        (.error .writeFailed, patch, setProt s1 patch.address length old_protect)
      else
        let s2 := writeBytes s1 patch.address patch.original_bytes
        (.ok (), { patch with is_applied := false }, setProt s2 patch.address length old_protect)

/-- A concrete process state for witnesses: every byte 7, every page 0x20. -/
def procState0 : ProcState := ⟨fun _ => 7, fun _ => 0x20⟩

theorem readBytes_length (s : ProcState) (address length : Nat) :
    (readBytes s address length).length = length := by
  simp [readBytes]

theorem setProt_mem (s : ProcState) (address length p : Nat) :
    (setProt s address length p).mem = s.mem := rfl

/-- Re-protecting a region to the protection it uniformly had is a no-op. -/
theorem setProt_restore (s : ProcState) (address length p : Nat)
    (huni : ∀ x, address ≤ x → x < address + length → s.prot x = s.prot address) :
    setProt (setProt s address length p) address length (s.prot address) = s := by
  ext x
  · rfl
  · simp only [setProt]
    by_cases hx : address ≤ x ∧ x < address + length
    · simp [hx, huni x hx.1 hx.2]
    · simp [hx]

/-- Reading back a region just written returns the written bytes. -/
theorem readBytes_writeBytes (s : ProcState) (address : Nat) (bytes : List Nat) :
    readBytes (writeBytes s address bytes) address bytes.length = bytes := by
  apply List.ext_getElem
  · simp [readBytes]
  · intro i h1 h2
    simp only [readBytes, writeBytes, List.getElem_map, List.getElem_range]
    have hi : i < bytes.length := by simpa [readBytes] using h2
    have hcond : address ≤ address + i ∧ address + i < address + bytes.length := by
      omega
    simp only [hcond, if_true, Nat.add_sub_cancel_left]
    exact List.getD_eq_getElem bytes _ hi

/-- Claim C3: `patch_with_nops` error handling.  (1) If the initial read of the
original bytes fails, the call aborts returning the read error with the process
state untouched.  (2) If the NOP write fails (read and protect succeeded), the
protection — uniform over the region beforehand — is restored to its previous
value before the error is returned, so the process state is exactly the initial
one and no `CodePatch` is produced.  (3) A `CodePatch` is returned only when
every step succeeded, and it is returned with `is_applied = true`. -/
theorem patch_with_nops_error_paths :
    (∀ (ops : MemOps) (s : ProcState) (address length : Nat),
      ops.readOk = false →
      patch_with_nops ops s address length = (.error .readFailed, s)) ∧
    (∀ (ops : MemOps) (s : ProcState) (address length : Nat),
      ops.readOk = true → ops.protOk = true → ops.writeOk = false →
      (∀ x, address ≤ x → x < address + length → s.prot x = s.prot address) →
      patch_with_nops ops s address length = (.error .writeFailed, s)) ∧
    (∀ (ops : MemOps) (s : ProcState) (address length : Nat)
      (p : CodePatch) (s' : ProcState),
      patch_with_nops ops s address length = (.ok p, s') →
      ops.readOk = true ∧ ops.protOk = true ∧ ops.writeOk = true ∧
        p.is_applied = true) := by
  refine ⟨?_, ?_, ?_⟩
  · intro ops s address length hr
    simp [patch_with_nops, hr]
  · intro ops s address length hr hp hw huni
    simp only [patch_with_nops, hr, hp, hw]
    simp [setProt_mem, setProt_restore s address length _ huni]
  · intro ops s address length p s' h
    rcases ops with ⟨r, pk, w⟩
    cases r <;> cases pk <;> cases w <;> simp_all [patch_with_nops]
    simp [← h.1]

/-- Witness for C3: a failing read and a failing write on a concrete state, and
a successful run producing an applied patch. -/
theorem patch_with_nops_error_paths_witness :
    patch_with_nops ⟨false, true, true⟩ procState0 2 2 = (.error .readFailed, procState0) ∧
    patch_with_nops ⟨true, true, false⟩ procState0 2 2 = (.error .writeFailed, procState0) ∧
    (∃ p s', patch_with_nops allOk procState0 2 2 = (.ok p, s') ∧ p.is_applied = true) :=
  ⟨patch_with_nops_error_paths.1 ⟨false, true, true⟩ procState0 2 2 rfl,
   patch_with_nops_error_paths.2.1 ⟨true, true, false⟩ procState0 2 2 rfl rfl rfl
     (fun _ _ _ => rfl),
   ⟨_, _, rfl,
    (patch_with_nops_error_paths.2.2 allOk procState0 2 2 _ _ rfl).2.2.2⟩⟩

/-- Claim C4: with every OS operation succeeding, applying the NOP patch and
then restoring it leaves the `length` bytes at `address` byte-for-byte equal to
their pre-patch value and clears the patch's `is_applied` flag; an immediately
repeated restore fails with the not-applied error, leaving the patch and the
process state unchanged. -/
theorem patch_restore_roundtrip (s : ProcState) (address length : Nat)
    (p : CodePatch) (s1 : ProcState)
    (h : patch_with_nops allOk s address length = (.ok p, s1)) :
    ∃ p2 s2, restore_patch allOk s1 p = (.ok (), p2, s2) ∧
      readBytes s2 address length = readBytes s address length ∧
      p2.is_applied = false ∧
      restore_patch allOk s2 p2 = (.error .notApplied, p2, s2) := by
  have hp : p = ⟨address, readBytes s address length, true⟩ := by
    simpa [patch_with_nops, allOk] using congrArg Prod.fst h |>.symm
  subst hp
  refine ⟨⟨address, readBytes s address length, false⟩,
    setProt
      (writeBytes (setProt s1 address length PAGE_EXECUTE_READWRITE)
        address (readBytes s address length))
      address length (s1.prot address),
    ?_, ?_, rfl, by simp [restore_patch]⟩
  · simp [restore_patch, allOk, readBytes_length]
  · show readBytes
        (writeBytes (setProt s1 address length PAGE_EXECUTE_READWRITE)
          address (readBytes s address length))
        address length = readBytes s address length
    have hw := readBytes_writeBytes
      (setProt s1 address length PAGE_EXECUTE_READWRITE) address (readBytes s address length)
    rwa [readBytes_length] at hw

/-- Witness for C4: a concrete apply/restore/restore run. -/
theorem patch_restore_roundtrip_witness :
    ∃ p s1, patch_with_nops allOk procState0 2 2 = (.ok p, s1) ∧
      ∃ p2 s2, restore_patch allOk s1 p = (.ok (), p2, s2) ∧
        readBytes s2 2 2 = readBytes procState0 2 2 ∧
        p2.is_applied = false ∧
        restore_patch allOk s2 p2 = (.error .notApplied, p2, s2) :=
  ⟨_, _, rfl, patch_restore_roundtrip procState0 2 2 _ _ rfl⟩

/-! ### Controller speed adjustment — src/controller.rs,
`CameraController::increase_speed` / `decrease_speed` (and the
`BasicCameraController` versions, which differ only in the step constant). -/

/-- `min_speed` field, set to 0.1 in both controllers' `new`. -/
def min_speed : ℝ := 0.1

/-- `max_speed` field, set to 100.0 in both controllers' `new`. -/
def max_speed : ℝ := 100

/-- `speed_step` of `CameraController::new`. -/
def camera_speed_step : ℝ := 0.5

/-- `speed_step` of `BasicCameraController::new`. -/
def basic_speed_step : ℝ := 1

/-- `increase_speed`: add the step, clamp to at most `max_speed`. -/
def increase_speed (speed_step move_speed : ℝ) : ℝ :=
  min (move_speed + speed_step) max_speed

/-- `decrease_speed`: subtract the step, clamp to at least `min_speed`. -/
def decrease_speed (speed_step move_speed : ℝ) : ℝ :=
  max (move_speed - speed_step) min_speed

/-- A pending speed-adjustment signal (positive / negative `get_speed_delta`). -/
inductive SpeedSignal
  | inc
  | dec

/-- Dispatch one speed signal, as `update_camera` does each tick. -/
def applySpeedSignal (speed_step move_speed : ℝ) : SpeedSignal → ℝ
  | .inc => increase_speed speed_step move_speed
  | .dec => decrease_speed speed_step move_speed

/-- Claim C7: for any nonnegative step and any starting speed within
`[min_speed, max_speed]` (as holds for the speeds 5.0 and 10.0 the program
constructs its controllers with), applying any sequence of increase/decrease
signals keeps the speed within `[min_speed, max_speed]`: each increase clamps
to at most `max_speed`, each decrease clamps to at least `min_speed`. -/
theorem speed_stays_in_bounds (speed_step : ℝ) (hstep : 0 ≤ speed_step)
    (move_speed : ℝ) (hlo : min_speed ≤ move_speed) (hhi : move_speed ≤ max_speed)
    (signals : List SpeedSignal) :
    min_speed ≤ List.foldl (applySpeedSignal speed_step) move_speed signals ∧
    List.foldl (applySpeedSignal speed_step) move_speed signals ≤ max_speed := by
  induction signals generalizing move_speed with
  | nil => exact ⟨hlo, hhi⟩
  | cons sig rest ih =>
    have hb : min_speed ≤ max_speed := by norm_num [min_speed, max_speed]
    cases sig
    · refine ih (increase_speed speed_step move_speed) ?_ ?_
      · exact le_min (by linarith) hb
      · exact min_le_right _ _
    · refine ih (decrease_speed speed_step move_speed) ?_ ?_
      · exact le_max_right _ _
      · exact max_le (by linarith) hb

/-- Witness for C7: the main program's camera controller (step 0.5, initial
speed 5.0) under an increase followed by two decreases. -/
theorem speed_stays_in_bounds_witness :
    min_speed ≤
      List.foldl (applySpeedSignal camera_speed_step) 5
        [SpeedSignal.inc, SpeedSignal.dec, SpeedSignal.dec] ∧
    List.foldl (applySpeedSignal camera_speed_step) 5
        [SpeedSignal.inc, SpeedSignal.dec, SpeedSignal.dec] ≤ max_speed :=
  speed_stays_in_bounds camera_speed_step (by norm_num [camera_speed_step]) 5
    (by norm_num [min_speed]) (by norm_num [max_speed]) _

/-! ### Camera matrix — src/camera.rs, and the controller's reconstruction and
seeding paths, src/controller.rs. The 16-float row-major matrix is a
`Fin 16 → ℝ`. -/

/-- A 3-component float vector (`CameraPosition` doubles as a vector). -/
structure Vec3 where
  x : ℝ
  y : ℝ
  z : ℝ

/-- Standard 3-D cross product (the operation the spec's phrase
"up = cross(forward, right)" refers to). -/
def cross (a b : Vec3) : Vec3 :=
  ⟨a.y * b.z - a.z * b.y, a.z * b.x - a.x * b.z, a.x * b.y - a.y * b.x⟩

/-- The forward vector `reconstruct_camera_matrix` computes from yaw/pitch. -/
noncomputable def forwardVec (yaw pitch : ℝ) : Vec3 :=
  ⟨Real.cos pitch * Real.cos yaw, Real.sin pitch, Real.cos pitch * Real.sin yaw⟩

/-- The right vector `reconstruct_camera_matrix` computes from yaw. -/
noncomputable def rightVec (yaw : ℝ) : Vec3 :=
  ⟨-Real.sin yaw, 0, Real.cos yaw⟩

/-- `CameraMatrix::get_position`: elements 12–14. -/
def get_position (m : Fin 16 → ℝ) : Vec3 :=
  ⟨m 12, m 13, m 14⟩

/-- `CameraMatrix::get_forward`: the negated third row. -/
def get_forward (m : Fin 16 → ℝ) : Vec3 :=
  ⟨-(m 8), -(m 9), -(m 10)⟩

/-- `CameraController::reconstruct_camera_matrix`: rebuild rows 0/1/2 of the
matrix from the controller's absolute yaw/pitch, preserving all other
elements. The `let` bindings mirror the source's local variables. -/
noncomputable def reconstruct_camera_matrix (yaw pitch : ℝ) (m : Fin 16 → ℝ) : Fin 16 → ℝ :=
  let cos_yaw := Real.cos yaw
  let sin_yaw := Real.sin yaw
  let cos_pitch := Real.cos pitch
  let sin_pitch := Real.sin pitch
  let forward_x := cos_pitch * cos_yaw
  let forward_y := sin_pitch
  let forward_z := cos_pitch * sin_yaw
  let right_x := -sin_yaw
  let right_y := (0 : ℝ)
  let right_z := cos_yaw
  let up_x := -sin_pitch * cos_yaw
  let up_y := cos_pitch
  let up_z := -sin_pitch * sin_yaw
  fun i =>
    if i = 0 then right_x else if i = 1 then right_y else if i = 2 then right_z
    else if i = 4 then up_x else if i = 5 then up_y else if i = 6 then up_z
    else if i = 8 then -forward_x else if i = 9 then -forward_y
    else if i = 10 then -forward_z
    else m i

/-- The all-zero matrix, used as a concrete input. -/
def zeroMat : Fin 16 → ℝ := fun _ => 0

/-- Counterexample to claim C1 as stated: at yaw = 0, pitch = 0 the value the
code writes into element 5 (the up vector's y component, `cos pitch` = 1)
differs from the y component of cross(forward, right), which is −1.  The code
comment says "cross product of forward and right" but the computed vector is
the cross product taken in the other order. -/
theorem reconstruct_up_cross_cex :
    reconstruct_camera_matrix 0 0 zeroMat 5 ≠ (cross (forwardVec 0 0) (rightVec 0)).y := by
  simp [reconstruct_camera_matrix, cross, forwardVec, rightVec]
  norm_num

/-- Claim C1 (amended): the reconstruction writes right = (−sin yaw, 0, cos yaw)
into row 0, up = cross(right, forward) — the negation of cross(forward, right)
— into row 1, and the forward vector (cos pitch·cos yaw, sin pitch,
cos pitch·sin yaw) negated into row 2, while leaving the position elements
(12–14) and the homogeneous elements (3, 7, 11, 15) unchanged, for every yaw
and pitch. -/
theorem reconstruct_rows (yaw pitch : ℝ) (m : Fin 16 → ℝ) :
    reconstruct_camera_matrix yaw pitch m 0 = (rightVec yaw).x ∧
    reconstruct_camera_matrix yaw pitch m 1 = (rightVec yaw).y ∧
    reconstruct_camera_matrix yaw pitch m 2 = (rightVec yaw).z ∧
    reconstruct_camera_matrix yaw pitch m 4 = (cross (rightVec yaw) (forwardVec yaw pitch)).x ∧
    reconstruct_camera_matrix yaw pitch m 5 = (cross (rightVec yaw) (forwardVec yaw pitch)).y ∧
    reconstruct_camera_matrix yaw pitch m 6 = (cross (rightVec yaw) (forwardVec yaw pitch)).z ∧
    cross (rightVec yaw) (forwardVec yaw pitch) =
      ⟨-(cross (forwardVec yaw pitch) (rightVec yaw)).x,
       -(cross (forwardVec yaw pitch) (rightVec yaw)).y,
       -(cross (forwardVec yaw pitch) (rightVec yaw)).z⟩ ∧
    reconstruct_camera_matrix yaw pitch m 8 = -(forwardVec yaw pitch).x ∧
    reconstruct_camera_matrix yaw pitch m 9 = -(forwardVec yaw pitch).y ∧
    reconstruct_camera_matrix yaw pitch m 10 = -(forwardVec yaw pitch).z ∧
    reconstruct_camera_matrix yaw pitch m 3 = m 3 ∧
    reconstruct_camera_matrix yaw pitch m 7 = m 7 ∧
    reconstruct_camera_matrix yaw pitch m 11 = m 11 ∧
    reconstruct_camera_matrix yaw pitch m 12 = m 12 ∧
    reconstruct_camera_matrix yaw pitch m 13 = m 13 ∧
    reconstruct_camera_matrix yaw pitch m 14 = m 14 ∧
    reconstruct_camera_matrix yaw pitch m 15 = m 15 := by
  have hpyth := Real.sin_sq_add_cos_sq yaw
  refine ⟨?_, ?_, ?_, ?_, ?_, ?_, ?_, ?_, ?_, ?_, ?_, ?_, ?_, ?_, ?_, ?_, ?_⟩ <;>
    simp [reconstruct_camera_matrix, cross, forwardVec, rightVec, Vec3.mk.injEq] <;>
    try refine ⟨?_, ?_, ?_⟩
  all_goals
    first
    | ring1
    | linear_combination Real.cos pitch * hpyth
    | linear_combination (-Real.cos pitch) * hpyth

/-! ### Orientation seeding — src/controller.rs, `update_camera` first-read
branch: `yaw = forward.z.atan2(forward.x)`, `pitch = (-forward.y).asin()`. -/

/-- Two-argument arctangent, the `f32::atan2` primitive: the angle of the
point `(x, y)`, in `(-π, π]`, modelled as the complex argument. -/
noncomputable def atan2 (y x : ℝ) : ℝ :=
  Complex.arg (x + y * Complex.I)

/-- The yaw the controller seeds from a freshly read matrix. -/
noncomputable def seed_yaw (m : Fin 16 → ℝ) : ℝ :=
  atan2 (get_forward m).z (get_forward m).x

/-- The pitch the controller seeds from a freshly read matrix. -/
noncomputable def seed_pitch (m : Fin 16 → ℝ) : ℝ :=
  Real.arcsin (-(get_forward m).y)

/-- Counterexample to claim C9 as stated: the claim quantifies over every pitch
with cos pitch > 0, but at pitch = 2π (cos = 1 > 0) seeding the reconstructed
matrix yields pitch 0, not −2π: the angle equalities only hold on the principal
ranges. -/
theorem seed_negates_pitch_cex :
    0 < Real.cos (2 * π) ∧
    seed_pitch (reconstruct_camera_matrix 0 (2 * π) zeroMat) ≠ -(2 * π) := by
  constructor
  · rw [Real.cos_two_pi]
    norm_num
  · have hval : seed_pitch (reconstruct_camera_matrix 0 (2 * π) zeroMat) = 0 := by
      simp [seed_pitch, get_forward, reconstruct_camera_matrix, Real.sin_two_pi]
    rw [hval]
    intro h
    nlinarith [Real.pi_pos]
/-- Claim C9 (amended): restricted to the principal ranges — yaw in `(-π, π]`
and pitch in `(-π/2, π/2)`, where cos pitch > 0 — building a matrix by the
controller's reconstruction from (yaw, pitch) and seeding orientation back from
its `get_forward` vector recovers the yaw exactly but yields the NEGATED pitch:
seeding is not the inverse of reconstruction in the pitch component. -/
theorem seed_inverts_yaw_negates_pitch (yaw pitch : ℝ)
    (hyaw : yaw ∈ Set.Ioc (-π) π) (hpitch : pitch ∈ Set.Ioo (-(π / 2)) (π / 2))
    (m : Fin 16 → ℝ) :
    0 < Real.cos pitch ∧
    seed_yaw (reconstruct_camera_matrix yaw pitch m) = yaw ∧
    seed_pitch (reconstruct_camera_matrix yaw pitch m) = -pitch := by
  have hcp : 0 < Real.cos pitch := Real.cos_pos_of_mem_Ioo hpitch
  refine ⟨hcp, ?_, ?_⟩
  · have hfx : (get_forward (reconstruct_camera_matrix yaw pitch m)).x =
        Real.cos pitch * Real.cos yaw := by
      simp [get_forward, reconstruct_camera_matrix]
    have hfz : (get_forward (reconstruct_camera_matrix yaw pitch m)).z =
        Real.cos pitch * Real.sin yaw := by
      simp [get_forward, reconstruct_camera_matrix]
    rw [seed_yaw, hfx, hfz, atan2]
    have key : ((Real.cos pitch * Real.cos yaw : ℝ) : ℂ) +
        ((Real.cos pitch * Real.sin yaw : ℝ) : ℂ) * Complex.I =
        ((Real.cos pitch : ℝ) : ℂ) * (Complex.cos yaw + Complex.sin yaw * Complex.I) := by
      push_cast
      ring
    rw [key]
    exact Complex.arg_mul_cos_add_sin_mul_I hcp hyaw
  · have hfy : (get_forward (reconstruct_camera_matrix yaw pitch m)).y =
        Real.sin pitch := by
      simp [get_forward, reconstruct_camera_matrix]
    rw [seed_pitch, hfy, Real.arcsin_neg, Real.arcsin_sin hpitch.1.le hpitch.2.le]

/-- Witness for amended C9: yaw = π, pitch = π/4. -/
theorem seed_inverts_yaw_negates_pitch_witness :
    0 < Real.cos (π / 4) ∧
    seed_yaw (reconstruct_camera_matrix π (π / 4) zeroMat) = π ∧
    seed_pitch (reconstruct_camera_matrix π (π / 4) zeroMat) = -(π / 4) :=
  seed_inverts_yaw_negates_pitch π (π / 4)
    ⟨by linarith [Real.pi_pos], le_refl π⟩
    ⟨by linarith [Real.pi_pos], by linarith [Real.pi_pos]⟩ zeroMat

/-! ### Controller orientation ticks — src/controller.rs, `update_camera`
lines 110–139: first-read seeding, then mouse-look with dead-zone, pitch
accumulation and clamping. -/

/-- `f32::clamp`: if below the lower bound return it, if above the upper bound
return it, else the value itself. -/
noncomputable def rust_clamp (x lo hi : ℝ) : ℝ :=
  if x < lo then lo else if hi < x then hi else x

/-- The pitch clamp bound `std::f32::consts::FRAC_PI_2 * 0.99`. -/
noncomputable def pitch_clamp_bound : ℝ := π / 2 * 0.99

/-- The orientation-relevant controller state: whether a first read has
happened (`last_position.is_some()`), and the yaw/pitch angles. -/
structure AngleState where
  seeded : Bool
  yaw : ℝ
  pitch : ℝ

/-- The first-successful-read branch of `update_camera`: on the first read,
seed yaw and pitch from the matrix's forward vector. -/
noncomputable def seedAngles (st : AngleState) (m : Fin 16 → ℝ) : AngleState :=
  if st.seeded then st else ⟨true, seed_yaw m, seed_pitch m⟩

/-- The mouse-look branch of `update_camera`: when the mouse is enabled and the
delta exceeds the dead-zone (|dx| > 0.01 or |dy| > 0.01), accumulate
yaw += dx·0.002 and pitch += dy·0.002, clamping pitch to ±(π/2·0.99). -/
noncomputable def mouseLook (st : AngleState) (enabled : Bool) (dx dy : ℝ) : AngleState :=
  if enabled then
    if 0.01 < |dx| ∨ 0.01 < |dy| then
      ⟨st.seeded, st.yaw + dx * 0.002,
        rust_clamp (st.pitch + dy * 0.002) (-(π / 2 * 0.99)) (π / 2 * 0.99)⟩
    else st
  else st

/-- One `update_camera` tick's effect on the orientation state: seed if this is
the first read, then apply mouse look. -/
noncomputable def update_camera_angles (st : AngleState) (m : Fin 16 → ℝ)
    (enabled : Bool) (dx dy : ℝ) : AngleState :=
  mouseLook (seedAngles st m) enabled dx dy

/-- The per-tick inputs of a tick sequence: the matrix read this tick, whether
mouse look is enabled, and the mouse delta. -/
structure TickInput where
  matrix : Fin 16 → ℝ
  mouseEnabled : Bool
  dx : ℝ
  dy : ℝ

/-- A sequence of `update_camera` ticks acting on the orientation state. -/
noncomputable def runTicks (st : AngleState) (ticks : List TickInput) : AngleState :=
  ticks.foldl (fun s t => update_camera_angles s t.matrix t.mouseEnabled t.dx t.dy) st

/-- A matrix whose stored row 2 is (0, 1, 0): its `get_forward` is (0, −1, 0),
a camera looking straight down in the controller's convention. -/
noncomputable def straightDownMat : Fin 16 → ℝ := fun i => if i = 9 then 1 else 0

/-- Counterexample to claim C6 as stated: one update tick of a fresh controller
(pitch state 0) with mouse delta (0, 0) — inside the dead-zone — leaves the
pitch strictly above 0.99·π/2: the first-read seeding sets
pitch = asin(1) = π/2, and a tick whose delta is inside the dead-zone never
clamps, so the pitch state is outside [−0.99·π/2, 0.99·π/2] after a tick
sequence. -/
theorem pitch_outside_clamp_cex :
    pitch_clamp_bound <
      (update_camera_angles ⟨false, 0, 0⟩ straightDownMat true 0 0).pitch := by
  have h1 : (update_camera_angles ⟨false, 0, 0⟩ straightDownMat true 0 0).pitch = π / 2 := by
    norm_num [update_camera_angles, seedAngles, mouseLook, seed_pitch, get_forward,
      straightDownMat, Real.arcsin_one]
  rw [h1, pitch_clamp_bound]
  nlinarith [Real.pi_pos]

/-- `rust_clamp` lands in `[lo, hi]` whenever `lo ≤ hi`. -/
theorem rust_clamp_mem (x lo hi : ℝ) (h : lo ≤ hi) :
    lo ≤ rust_clamp x lo hi ∧ rust_clamp x lo hi ≤ hi := by
  unfold rust_clamp
  split
  · exact ⟨le_refl lo, h⟩
  · split
    · exact ⟨h, le_refl hi⟩
    · constructor <;> linarith

/-- One tick keeps a seeded, in-bounds pitch in bounds (helper for C6). -/
theorem update_camera_angles_pitch_invariant (st : AngleState) (m : Fin 16 → ℝ)
    (enabled : Bool) (dx dy : ℝ) (hseed : st.seeded = true)
    (hlo : -pitch_clamp_bound ≤ st.pitch) (hhi : st.pitch ≤ pitch_clamp_bound) :
    (update_camera_angles st m enabled dx dy).seeded = true ∧
    -pitch_clamp_bound ≤ (update_camera_angles st m enabled dx dy).pitch ∧
    (update_camera_angles st m enabled dx dy).pitch ≤ pitch_clamp_bound := by
  have hb : (0 : ℝ) ≤ π / 2 * 0.99 := by nlinarith [Real.pi_pos]
  have hcl := rust_clamp_mem (st.pitch + dy * 0.002) (-(π / 2 * 0.99)) (π / 2 * 0.99)
    (by linarith)
  have hsa : seedAngles st m = st := by simp [seedAngles, hseed]
  rw [update_camera_angles, hsa, mouseLook]
  split
  · split
    · refine ⟨hseed, ?_, ?_⟩
      · simpa [pitch_clamp_bound] using hcl.1
      · simpa [pitch_clamp_bound] using hcl.2
    · exact ⟨hseed, hlo, hhi⟩
  · exact ⟨hseed, hlo, hhi⟩

/-- Claim C6 (amended): once the controller is past its first read (seeded) and
its pitch is within [−0.99·π/2, 0.99·π/2] — as holds in particular when it is
still the initial 0 — any sequence of update ticks with any mouse deltas,
however large, keeps the pitch within [−0.99·π/2, 0.99·π/2]: every tick whose
delta exceeds the dead-zone clamps the accumulated pitch, and every other tick
leaves it unchanged.  (Unamended, the claim fails: the first tick's seeding can
set pitch = asin(±1) = ±π/2, outside the interval — see the counterexample.) -/
theorem pitch_stays_in_clamp_interval (st : AngleState) (hseed : st.seeded = true)
    (hlo : -pitch_clamp_bound ≤ st.pitch) (hhi : st.pitch ≤ pitch_clamp_bound)
    (ticks : List TickInput) :
    -pitch_clamp_bound ≤ (runTicks st ticks).pitch ∧
    (runTicks st ticks).pitch ≤ pitch_clamp_bound := by
  induction ticks generalizing st with
  | nil => exact ⟨hlo, hhi⟩
  | cons t rest ih =>
    obtain ⟨h1, h2, h3⟩ :=
      update_camera_angles_pitch_invariant st t.matrix t.mouseEnabled t.dx t.dy hseed hlo hhi
    exact ih _ h1 h2 h3

/-- Witness for amended C6: a fresh-but-seeded state with pitch 0, under a huge
delta tick followed by a dead-zone tick. -/
theorem pitch_stays_in_clamp_interval_witness :
    -pitch_clamp_bound ≤
      (runTicks ⟨true, 0, 0⟩
        [⟨zeroMat, true, 5000, 5000⟩, ⟨zeroMat, true, 0, 0⟩]).pitch ∧
    (runTicks ⟨true, 0, 0⟩
        [⟨zeroMat, true, 5000, 5000⟩, ⟨zeroMat, true, 0, 0⟩]).pitch ≤ pitch_clamp_bound :=
  pitch_stays_in_clamp_interval ⟨true, 0, 0⟩ rfl
    (by simp [pitch_clamp_bound]; nlinarith [Real.pi_pos])
    (by simp [pitch_clamp_bound]; nlinarith [Real.pi_pos]) _

/-! ### Patch-target discovery — src/process.rs,
`ProcessHandle::get_camera_write_patch_address`. Two-byte probe reads are an
oracle `Nat → Option (Nat × Nat)` (`none` = failed or partial read). -/

/-- The fixed instruction offset of the camera-write `repe movsd`. -/
def instruction_offset : Nat := 0x16B2E4

/-- The assumed `.text` section offset. -/
def text_section_offset : Nat := 0x1000

/-- The three candidate absolute addresses tried, in order. -/
def addresses_to_try (base_address : Nat) : List Nat :=
  [base_address + instruction_offset,
   base_address + text_section_offset + instruction_offset,
   base_address + instruction_offset - text_section_offset]

/-- A successful 2-byte probe matching the `repe movsd` signature F3 A5. -/
def matchesSignature (read2 : Nat → Option (Nat × Nat)) (addr : Nat) : Bool :=
  match read2 addr with
  | some (b0, b1) => b0 == 0xF3 && b1 == 0xA5
  | none => false

/-- The probe loop: first address whose 2 bytes match the signature. -/
def findSignature (read2 : Nat → Option (Nat × Nat)) : List Nat → Option Nat
  | [] => none
  | addr :: rest =>
    if matchesSignature read2 addr then some addr else findSignature read2 rest

/-- `ProcessHandle::get_camera_write_patch_address`: probe the candidates in
order; if none matches, fall back to the first candidate.  The source wraps
the result in `Ok` unconditionally (the function cannot fail); the embedding
returns the address directly. -/
def get_camera_write_patch_address (read2 : Nat → Option (Nat × Nat))
    (base_address : Nat) : Nat :=
  match findSignature read2 (addresses_to_try base_address) with
  | some addr => addr
  | none => (addresses_to_try base_address).headD 0

/-- A probe oracle under which no address matches (every read fails). -/
def read2None : Nat → Option (Nat × Nat) := fun _ => none

/-- Claim C8: the discovery computes exactly the three candidates base+offset,
base+0x1000+offset, base+offset−0x1000; a probe matches exactly when its two
bytes are (0xF3, 0xA5); the first matching candidate in order is returned; and
when no candidate matches, the first candidate address is returned as a
non-error result. -/
theorem patch_address_discovery (read2 : Nat → Option (Nat × Nat)) (base : Nat) :
    addresses_to_try base =
      [base + 0x16B2E4, base + 0x1000 + 0x16B2E4, base + 0x16B2E4 - 0x1000] ∧
    (∀ a, matchesSignature read2 a = true ↔ read2 a = some (0xF3, 0xA5)) ∧
    (matchesSignature read2 (base + 0x16B2E4) = true →
      get_camera_write_patch_address read2 base = base + 0x16B2E4) ∧
    (matchesSignature read2 (base + 0x16B2E4) = false →
      matchesSignature read2 (base + 0x1000 + 0x16B2E4) = true →
      get_camera_write_patch_address read2 base = base + 0x1000 + 0x16B2E4) ∧
    (matchesSignature read2 (base + 0x16B2E4) = false →
      matchesSignature read2 (base + 0x1000 + 0x16B2E4) = false →
      matchesSignature read2 (base + 0x16B2E4 - 0x1000) = true →
      get_camera_write_patch_address read2 base = base + 0x16B2E4 - 0x1000) ∧
    (matchesSignature read2 (base + 0x16B2E4) = false →
      matchesSignature read2 (base + 0x1000 + 0x16B2E4) = false →
      matchesSignature read2 (base + 0x16B2E4 - 0x1000) = false →
      get_camera_write_patch_address read2 base = base + 0x16B2E4) := by
  refine ⟨rfl, ?_, ?_, ?_, ?_, ?_⟩
  · intro a
    unfold matchesSignature
    match h : read2 a with
    | none => simp
    | some (b0, b1) => simp [Prod.ext_iff]
  · intro h1
    simp [get_camera_write_patch_address, findSignature, addresses_to_try,
      instruction_offset, text_section_offset, h1]
  · intro h1 h2
    simp [get_camera_write_patch_address, findSignature, addresses_to_try,
      instruction_offset, text_section_offset, h1, h2]
  · intro h1 h2 h3
    rw [show base + 0x16B2E4 - 0x1000 = base + 1483492 from by omega] at h3
    simp [get_camera_write_patch_address, findSignature, addresses_to_try,
      instruction_offset, text_section_offset, h1, h2, h3]
  · intro h1 h2 h3
    rw [show base + 0x16B2E4 - 0x1000 = base + 1483492 from by omega] at h3
    simp [get_camera_write_patch_address, findSignature, addresses_to_try,
      instruction_offset, text_section_offset, h1, h2, h3]

/-- Witness for C8: with every probe failing, base 3 falls back to the first
candidate 3 + 0x16B2E4. -/
theorem patch_address_discovery_witness :
    get_camera_write_patch_address read2None 3 = 3 + 0x16B2E4 :=
  (patch_address_discovery read2None 3).2.2.2.2.2 rfl rfl rfl

end ThpsFreeCam
